import Mathlib

set_option maxHeartbeats 1000000

/-!
Shallow embedding of the email-delivery and credential-resolution core of the
patient-portal repository: `accounts/sendgrid_utils.py` and
`peds_edu/aws_secrets.py`.  Pure string manipulation is translated directly.
Process and network boundaries (SHA-256, JSON parsing, base64 decoding, the
secret-store client, HTTP requests, the SMTP session) are modelled as explicit
oracle parameters, and the side effects of interest (log writes, network
events, request counts) are returned as explicit values.
-/

/-- Boundary primitives of the Python standard library used by the module:
`hashlib.sha256(...).hexdigest()`, `json.loads` restricted to objects with
string values (a non-string value behaves exactly like an absent key under the
`isinstance(v, str)` guard, so it is modelled as absent), and the
base64-plus-utf8 decoding applied to binary secrets (`Except.error` models a
raised decoding exception). -/
structure Prim where
  sha : String → String
  jp : String → Option (List (String × String))
  b64 : String → Except String String

/-- Python slice `s[:n]` (by code point). -/
def strTake (s : String) (n : Nat) : String := ⟨s.data.take n⟩

/-- Python slice `s[n:]`. -/
def strDrop (s : String) (n : Nat) : String := ⟨s.data.drop n⟩

/-- Python slice `s[1:-1]`. -/
def strInner (s : String) : String := ⟨(s.data.drop 1).dropLast⟩

/-- Python slice `s[-n:]`; for `n = 0` that slice is the whole string. -/
def strTakeRight (s : String) (n : Nat) : String :=
  if n = 0 then s else ⟨s.data.drop (s.data.length - n)⟩

/-- Python `str.strip()`: drop whitespace from both ends.  (A list-based
implementation, so that concrete values reduce inside the kernel.) -/
def pyStrip (s : String) : String :=
  ⟨((s.data.dropWhile Char.isWhitespace).reverse.dropWhile Char.isWhitespace).reverse⟩

/-- ASCII lower-casing of one character (what `str.lower()` does on the ASCII
configuration strings this module compares). -/
def asciiLower (c : Char) : Char :=
  if 65 ≤ c.toNat ∧ c.toNat ≤ 90 then Char.ofNat (c.toNat + 32) else c

/-- Python `str.lower()` (ASCII range). -/
def pyLower (s : String) : String := ⟨s.data.map asciiLower⟩

/-- List-level pattern test: `pat` is an initial segment of `l`. -/
def listStarts : List Char → List Char → Bool
  | [], _ => true
  | _ :: _, [] => false
  | a :: pat, b :: l => a = b && listStarts pat l

/-- Python `s.startswith(pat)`. -/
def strStarts (s pat : String) : Bool := listStarts pat.data s.data

/-- Python `s.endswith(pat)`. -/
def strEnds (s pat : String) : Bool := listStarts pat.data.reverse s.data.reverse

/-- Embeds `_truncate` (sendgrid_utils.py:24). -/
def truncate (s : String) (limit : Nat) : String :=
  if s.length ≤ limit then s
  else strTake s limit ++ "\n... (truncated; len=" ++ toString s.length ++ ")"

/-- A single-quote character, written via its code point. -/
def squote : String := String.singleton (Char.ofNat 39)

/-- Embeds `_sanitize_secret` (sendgrid_utils.py:31): trim, strip a leading
`Bearer ` token, strip one layer of matching wrapping quotes, trim again. -/
def sanitize_secret (s : String) : String :=
  let s := pyStrip s
  if s = "" then ""
  else
    let s := if strStarts (pyLower s) "bearer " then pyStrip (strDrop s 7) else s
    let s :=
      if (strStarts s "\"" && strEnds s "\"") || (strStarts s squote && strEnds s squote) then
        pyStrip (strInner s)
      else s
    pyStrip s

/-- The ordered field names recognized inside a JSON-shaped secret
(sendgrid_utils.py:57-69). -/
def sendgridJsonKeys : List String :=
  ["SendGrid_email", "sendgrid_email", "SENDGRID_API_KEY", "sendgrid_api_key",
   "api_key", "apikey", "key", "SENDGRID_KEY", "sendgrid_key"]

/-- First recognized field of the parsed object whose value is a non-blank
string (the inner loop of `_extract_sendgrid_key`). -/
def firstJsonKeyHit (obj : List (String × String)) : List String → Option String
  | [] => none
  | k :: ks =>
    match obj.lookup k with
    | some v => if pyStrip v ≠ "" then some v else firstJsonKeyHit obj ks
    | none => firstJsonKeyHit obj ks

/-- Embeds `_extract_sendgrid_key` (sendgrid_utils.py:42): a JSON-shaped
secret is parsed and searched for a known field; everything else (including
parse failures and objects without a usable field) falls back to
`sanitize_secret` of the raw value. -/
def extract_sendgrid_key (prim : Prim) (raw : String) : String :=
  let raw := pyStrip raw
  if raw = "" then ""
  else if strStarts raw "\x7b" && strEnds raw "\x7d" then
    match prim.jp raw with
    | some obj =>
      match firstJsonKeyHit obj sendgridJsonKeys with
      | some v => sanitize_secret v
      | none => sanitize_secret raw
    | none => sanitize_secret raw
  else sanitize_secret raw

/-- Embeds `_fingerprint` (sendgrid_utils.py:79): `missing` for a blank
secret, otherwise `len=<decimal length> sha256_12=<first 12 hex chars>`. -/
def fingerprint (prim : Prim) (secret : String) : String :=
  if secret = "" then "missing"
  else "len=" ++ toString secret.length ++ " sha256_12=" ++ strTake (prim.sha secret) 12

/-- Embeds `_redacted_tail` (sendgrid_utils.py:87). -/
def redacted_tail (secret : String) (n : Nat) : String :=
  if secret.length < max 1 n then "<short>" else strTakeRight secret n

/-- The clamping of `SENDGRID_KEY_TAIL_CHARS` in `_KeyCandidate.tail`
(sendgrid_utils.py:136-140); `none` models both an unset variable and an
unparsable value (the `except` branch), which fall back to 4. -/
def clampTailChars (envVal : Option Int) : Nat :=
  (max 2 (min 12 (envVal.getD 4))).toNat

/-- Embeds the `tail` property of `_KeyCandidate` (sendgrid_utils.py:134). -/
def candidateTail (envVal : Option Int) (key : String) : String :=
  redacted_tail key (clampTailChars envVal)

/-- Embeds the `_KeyCandidate` dataclass (sendgrid_utils.py:125). -/
structure KeyCandidate where
  source : String
  key : String
deriving DecidableEq

/-- Outcome of the boto3 interaction inside `get_secret_string`
(aws_secrets.py): the library may be missing, the client call may raise (all
caught exception classes produce the same `<TypeName>: <msg>` error string,
so a single constructor covers every raised exception), or a response dict
arrives carrying optional `SecretString` / `SecretBinary` entries. -/
inductive AwsFetch where
  | noBoto3 : AwsFetch
  | fetchError (name msg : String) : AwsFetch
  | response (secretString : Option String) (secretBinary : Option String) : AwsFetch
deriving DecidableEq

/-- The `SecretBinary` branch of `get_secret_string` (aws_secrets.py:76-81):
a truthy binary payload is base64-decoded (a decoding failure becomes a
`decode_error:` string), anything else falls through to `(None, "")`. -/
def getSecretBinaryPart (prim : Prim) (sb : Option String) : Option String × String :=
  match sb with
  | some b =>
    if b ≠ "" then
      match prim.b64 b with
      | .ok u => (some (pyStrip u), "")
      | .error em => (none, "decode_error:" ++ em)
    else (none, "")
  | none => (none, "")

/-- Embeds the body of `get_secret_string` (aws_secrets.py:36-83), with the
module global `_LAST_ERROR` returned as the second component (this is exactly
what `get_last_error` reports after the call).  The Python function never
raises; correspondingly the model is a total function into a pair. -/
def get_secret_string (prim : Prim) (backend : AwsFetch) : Option String × String :=
  match backend with
  | .noBoto3 => (none, "boto3_unavailable")
  | .fetchError n m => (none, n ++ ": " ++ m)
  | .response ss sb =>
    match ss with
    | some s => if s ≠ "" then (some (pyStrip s), "") else getSecretBinaryPart prim sb
    | none => getSecretBinaryPart prim sb

/-- A model of `functools.lru_cache` state: entries are kept
most-recently-used first. -/
structure Lru (K V : Type) where
  entries : List (K × V)
deriving DecidableEq

/-- Cache lookup (the hit test of `lru_cache`). -/
def lruLookup [DecidableEq K] (c : Lru K V) (k : K) : Option V :=
  (c.entries.find? (fun p => p.1 = k)).map Prod.snd

/-- One call through `@lru_cache(maxsize=...)` (aws_secrets.py:35): a hit
returns the cached value and refreshes the key; a miss runs the wrapped
function, inserts the result and evicts the least-recently-used entry when
the size bound is exceeded.  The boolean records whether the wrapped function
(the actual secret fetch) ran. -/
def lruGet [DecidableEq K] (maxsize : Nat) (c : Lru K V) (k : K) (compute : K → V) :
    V × Lru K V × Bool :=
  match c.entries.find? (fun p => p.1 = k) with
  | some p => (p.2, ⟨(k, p.2) :: c.entries.filter (fun q => ¬ q.1 = k)⟩, false)
  | none =>
    let v := compute k
    let es := (k, v) :: c.entries
    (v, ⟨if maxsize < es.length then es.dropLast else es⟩, true)

/-- Runs a sequence of cache requests, counting backend fetches. -/
def lruRun [DecidableEq K] (maxsize : Nat) (compute : K → V) (c : Lru K V) :
    List K → Nat × Lru K V
  | [] => (0, c)
  | k :: ks =>
    let r := lruGet maxsize c k compute
    let rest := lruRun maxsize compute r.2.1 ks
    ((if r.2.2 then 1 else 0) + rest.1, rest.2)

/-- The memoized secret resolver: `get_secret_string` under
`@lru_cache(maxsize=32)`.  Since `lru_cache` keys on all call arguments, the
cache key is the `(secret_name, region_name)` pair. -/
def get_secret_string_cached (prim : Prim) (backendOf : String × String → AwsFetch)
    (c : Lru (String × String) (Option String)) (secretName region : String) :
    Option String × Lru (String × String) (Option String) × Bool :=
  lruGet 32 c (secretName, region) (fun p => (get_secret_string prim (backendOf p)).1)

/-- Embeds `_get_secret_string_uncached` (sendgrid_utils.py:111): calls the
undecorated resolver (`__wrapped__` bypasses the cache), strips the value and
forwards the stripped last-error string, blank becoming `none`. -/
def get_secret_string_uncached (prim : Prim) (backend : AwsFetch) : String × Option String :=
  let r := get_secret_string prim backend
  let e := pyStrip r.2
  (pyStrip (r.1.getD ""), if e = "" then none else some e)

/-- The configuration and environment surface read by
`_iter_sendgrid_api_key_candidates` (sendgrid_utils.py:144): the secret-store
interaction for the configured name/region, plus the four settings/env
fallback strings (each already passed through `str(... or "")`, hence a plain
string). -/
structure CollectEnv where
  secretName : String
  region : String
  awsBackend : AwsFetch
  settingsApiKey : String
  settingsHostPassword : String
  envApiKey : String
  envHostPassword : String

/-- The diagnostics record built by the collector
(sendgrid_utils.py:148-163). -/
structure CollectDiag where
  secretName : String
  region : String
  awsSecretAttempted : Bool
  awsSecretError : String
  awsSecretValuePresent : Bool
deriving DecidableEq

/-- The raw `(source, value)` list in priority order
(sendgrid_utils.py:156-173): the extracted secret-store key when non-empty,
then the settings API key, the settings password, the environment API key and
the environment password. -/
def candidatesRaw (prim : Prim) (env : CollectEnv) : List (String × String) :=
  let secretRaw := (get_secret_string_uncached prim env.awsBackend).1
  let secretKey := extract_sendgrid_key prim secretRaw
  (if secretKey ≠ "" then
    [("aws_secrets:" ++ env.secretName ++ "@" ++ env.region, secretKey)]
   else []) ++
  [("settings.SENDGRID_API_KEY", env.settingsApiKey),
   ("settings.EMAIL_HOST_PASSWORD", env.settingsHostPassword),
   ("env:SENDGRID_API_KEY", env.envApiKey),
   ("env:EMAIL_HOST_PASSWORD", env.envHostPassword)]

/-- The normalize-and-deduplicate loop of `_iter_sendgrid_api_key_candidates`
(sendgrid_utils.py:175-185): extract each raw value, drop blanks, keep the
first occurrence of each fingerprint. -/
def dedupCandidates (prim : Prim) : List (String × String) → List String → List KeyCandidate
  | [], _ => []
  | (src, raw) :: rest, seen =>
    if extract_sendgrid_key prim raw = "" then dedupCandidates prim rest seen
    else if fingerprint prim (extract_sendgrid_key prim raw) ∈ seen then
      dedupCandidates prim rest seen
    else
      ⟨src, extract_sendgrid_key prim raw⟩ ::
        dedupCandidates prim rest (fingerprint prim (extract_sendgrid_key prim raw) :: seen)

/-- Embeds `_iter_sendgrid_api_key_candidates` (sendgrid_utils.py:144-187). -/
def iter_sendgrid_api_key_candidates (prim : Prim) (env : CollectEnv) :
    List KeyCandidate × CollectDiag :=
  let fetched := get_secret_string_uncached prim env.awsBackend
  (dedupCandidates prim (candidatesRaw prim env) [],
   { secretName := env.secretName, region := env.region, awsSecretAttempted := true,
     awsSecretError := fetched.2.getD "", awsSecretValuePresent := fetched.1 ≠ "" })

/-- Result of one `urlopen` POST to the SendGrid API
(sendgrid_utils.py:295-298 and the matching `except` clauses): a response
carrying a status code, a raised `HTTPError` (whose status attribute may be
absent), a raised `URLError`, or any other exception.  The oracle is indexed
by the number of HTTP requests already made. -/
inductive ApiResult where
  | response (status : Nat) (body : String) : ApiResult
  | httpError (status : Option Nat) (body : String) : ApiResult
  | urlError (msg : String) : ApiResult
  | otherExn (name msg : String) : ApiResult
deriving DecidableEq

/-- Observable outcome of `_send_via_sendgrid_api`: the returned
`(ok, status_code, diagnostic, error)` tuple, with the JSON diagnostic
represented structurally by its varying field `selected_source`. -/
structure ApiOutcome where
  success : Bool
  status : Option Nat
  selectedSource : Option String
  error : String
deriving DecidableEq

/-- The failure result built when the candidate loop ends
(sendgrid_utils.py:350-355). -/
def apiFail (lastStatus : Option Nat) (lastErr : String) : ApiOutcome :=
  { success := false, status := lastStatus, selectedSource := none,
    error := if lastErr = "" then "SendGrid API send failed" else lastErr }

/-- Rendering of a possibly-absent status inside an error string (Python
string interpolation prints `None`). -/
def optStatusStr : Option Nat → String
  | some n => toString n
  | none => "None"

/-- The `for cand in candidates` loop of `_send_via_sendgrid_api`
(sendgrid_utils.py:287-348).  `i` counts HTTP requests already made and
`lastStatus` / `lastErr` carry the recorded last failure; the second result
component is the total request count.  A 2xx response returns success for the
current candidate; a 401/403 status (whether returned or raised as
`HTTPError`) records the failure and rotates to the next candidate; any other
status, `URLError` or other exception records the failure and leaves the
loop. -/
def apiLoop (oracle : Nat → ApiResult) (i : Nat) (lastStatus : Option Nat) (lastErr : String) :
    List KeyCandidate → ApiOutcome × Nat
  | [] => (apiFail lastStatus lastErr, i)
  | c :: cs =>
    match oracle i with
    | .response st _ =>
      if 200 ≤ st ∧ st < 300 then
        ({ success := true, status := some st, selectedSource := some c.source, error := "" },
         i + 1)
      else if st = 401 ∨ st = 403 then
        apiLoop oracle (i + 1) (some st) ("HTTP " ++ toString st) cs
      else (apiFail (some st) ("HTTP " ++ toString st), i + 1)
    | .httpError st _ =>
      if st = some 401 ∨ st = some 403 then
        apiLoop oracle (i + 1) st ("HTTPError " ++ optStatusStr st) cs
      else (apiFail st ("HTTPError " ++ optStatusStr st), i + 1)
    | .urlError m => (apiFail none ("URLError: " ++ m), i + 1)
    | .otherExn n m => (apiFail none (n ++ ": " ++ m), i + 1)

/-- Embeds `_send_via_sendgrid_api` (sendgrid_utils.py:248-355).  The message
payload does not influence control flow and is not modelled; the network is
the `oracle`.  Returns the outcome together with the number of HTTP requests
made. -/
def send_via_sendgrid_api (prim : Prim) (env : CollectEnv) (oracle : Nat → ApiResult) :
    ApiOutcome × Nat :=
  match (iter_sendgrid_api_key_candidates prim env).1 with
  | [] => ({ success := false, status := none, selectedSource := none,
             error := "No SendGrid API key candidates found" }, 0)
  | c :: cs => apiLoop oracle 0 none "" (c :: cs)

/-- Connection parameters resolved from Django settings at the top of
`_send_via_smtp` (sendgrid_utils.py:365-369), with the `getattr` defaults
already applied, plus the raw `EMAIL_HOST_PASSWORD` setting. -/
structure SmtpCfg where
  host : String
  port : Nat
  useTls : Bool
  useSsl : Bool
  user : String
  hostPassword : String
deriving DecidableEq

/-- The SMTP protocol steps whose failure aborts the send
(sendgrid_utils.py:399-412): the connecting constructor, the first EHLO, the
optional STARTTLS with its second EHLO, the login, and the message
transmission. -/
inductive SmtpStep where
  | connect : SmtpStep
  | ehloFirst : SmtpStep
  | startTls : SmtpStep
  | ehloSecond : SmtpStep
  | login : SmtpStep
  | sendMsg : SmtpStep
deriving DecidableEq

/-- An exception raised by an SMTP step; a disconnect carries
`name = "SMTPServerDisconnected"`. -/
structure SmtpExn where
  name : String
  msg : String
deriving DecidableEq

/-- The fatal step sequence for a given TLS configuration. -/
def fatalSteps (useTls useSsl : Bool) : List SmtpStep :=
  .connect :: .ehloFirst ::
    ((if useTls ∧ ¬ useSsl then [.startTls, .ehloSecond] else []) ++ [.login, .sendMsg])

/-- Network-visible events of one `_send_via_smtp` call.  `probeTcp` is the
`_probe_tcp` diagnostic connection (sendgrid_utils.py:208-213, issued at
line 372 before any password check); `loginEv` carries the credentials handed
to `smtplib` `login`. -/
inductive SEvent where
  | probeTcp : SEvent
  | connectEv : SEvent
  | ehloEv : SEvent
  | startTlsEv : SEvent
  | loginEv (user pw : String) : SEvent
  | sendMsgEv : SEvent
  | quitEv : SEvent
  | closeEv : SEvent
deriving DecidableEq

/-- The network event produced by executing one SMTP step. -/
def stepEvent (user pw : String) : SmtpStep → SEvent
  | .connect => .connectEv
  | .ehloFirst => .ehloEv
  | .startTls => .startTlsEv
  | .ehloSecond => .ehloEv
  | .login => .loginEv user pw
  | .sendMsg => .sendMsgEv

/-- Runs the fatal steps of one connection attempt against the session oracle
(`oracle attempt step = some e` means that step raises `e`): stops at the
first failure, returning it together with the events of the steps actually
executed. -/
def runSteps (oracle : Nat → SmtpStep → Option SmtpExn) (attempt : Nat) (user pw : String) :
    List SmtpStep → Option SmtpExn × List SEvent
  | [] => (none, [])
  | s :: rest =>
    match oracle attempt s with
    | some e => (some e, [stepEvent user pw s])
    | none =>
      let r := runSteps oracle attempt user pw rest
      (r.1, stepEvent user pw s :: r.2)

/-- The password resolution of `_send_via_smtp` (sendgrid_utils.py:375-379):
prefer the sanitized `EMAIL_HOST_PASSWORD`, else fall back to the first
credential candidate.  Returns the password and its reported source. -/
def resolveSmtpPw (prim : Prim) (cfg : SmtpCfg) (env : CollectEnv) : String × String :=
  let pw0 := sanitize_secret cfg.hostPassword
  match (iter_sendgrid_api_key_candidates prim env).1 with
  | c :: _ => if pw0 = "" then (c.key, c.source) else (pw0, "settings.EMAIL_HOST_PASSWORD")
  | [] => (pw0, "settings.EMAIL_HOST_PASSWORD")

/-- Observable outcome of `_send_via_smtp`: the `(ok, status, diag, error)`
tuple with the JSON diagnostic represented by its varying fields. -/
structure SmtpOutcome where
  success : Bool
  status : Option Nat
  probe : String
  pwSource : Option String
  error : String
deriving DecidableEq

/-- Embeds `_send_via_smtp` (sendgrid_utils.py:358-448).  The TCP probe
outcome string is an input (`probeRes`), the SMTP session is the `oracle`,
and the returned event list is the network activity in order.  The procedure
makes exactly one connection attempt: a failing fatal step aborts with that
exception message string (Python applies str to the exception), a failing `quit` is swallowed, and `close`
always runs in the `finally` block. -/
def send_via_smtp (prim : Prim) (cfg : SmtpCfg) (env : CollectEnv) (probeRes : String)
    (oracle : Nat → SmtpStep → Option SmtpExn) : SmtpOutcome × List SEvent :=
  let pwSrc := resolveSmtpPw prim cfg env
  if pwSrc.1 = "" then
    ({ success := false, status := none, probe := probeRes, pwSource := none,
       error := "No SMTP password available" }, [.probeTcp])
  else
    let r := runSteps oracle 0 cfg.user pwSrc.1 (fatalSteps cfg.useTls cfg.useSsl)
    match r.1 with
    | some e =>
      ({ success := false, status := none, probe := probeRes, pwSource := some pwSrc.2,
         error := e.msg }, .probeTcp :: (r.2 ++ [.closeEv]))
    | none =>
      ({ success := true, status := some 250, probe := probeRes, pwSource := some pwSrc.2,
         error := "" }, .probeTcp :: (r.2 ++ [.quitEv, .closeEv]))

/-- Embeds `_get_backend_mode` (sendgrid_utils.py:199-205). -/
def get_backend_mode (prim : Prim) (env : CollectEnv) (modeSetting : String) : String :=
  let v := pyLower (pyStrip modeSetting)
  if v = "sendgrid" ∨ v = "smtp" ∨ v = "console" then v
  else if (iter_sendgrid_api_key_candidates prim env).1 ≠ [] then "sendgrid" else "smtp"

/-- A persisted `EmailLog` row as written by `_log_email_attempt`
(sendgrid_utils.py:216-245); the best-effort sink is modelled as a
successful append. -/
structure LogRow where
  toEmail : String
  subject : String
  provider : String
  success : Bool
  statusCode : Option Nat
  responseBody : String
  error : String
deriving DecidableEq

/-- The `(ok, status, body, err)` tuple returned by a transport function. -/
structure TransportR where
  ok : Bool
  status : Option Nat
  body : String
  err : String
deriving DecidableEq

/-- One `_log_email_attempt` row for a transport outcome
(sendgrid_utils.py:234-243): bodies and errors are truncated on write. -/
def mkRow (r subject provider : String) (t : TransportR) : LogRow :=
  { toEmail := r, subject := subject, provider := provider, success := t.ok,
    statusCode := t.status, responseBody := truncate t.body 12000,
    error := truncate t.err 8000 }

/-- The transport dispatch of the provider loop (sendgrid_utils.py:480-493);
each transport is invoked at most once per orchestrator call, so the two
transports enter the model as their outcome values. -/
def dispatchTransport (api smtp : TransportR) (p : String) : TransportR :=
  if p = "sendgrid" then api else smtp

/-- The provider loop of `send_email_via_sendgrid`
(sendgrid_utils.py:479-509): try each provider in order, log one row per
recipient with the outcome of that provider, stop at the first success.  Returns
`(overall success, log rows, providers actually tried)`. -/
def runProviders (api smtp : TransportR) (subject : String) (rs : List String) :
    List String → Bool × List LogRow × List String
  | [] => (false, [], [])
  | p :: ps =>
    let t := dispatchTransport api smtp p
    let rows := rs.map (fun r => mkRow r subject p t)
    if t.ok then (true, rows, [p])
    else
      let rest := runProviders api smtp subject rs ps
      (rest.1, rows ++ rest.2.1, p :: rest.2.2)

/-- First-seen-order deduplication, `list(dict.fromkeys(...))`
(sendgrid_utils.py:459), written with an explicit seen accumulator. -/
def dedupSeen (seen : List String) : List String → List String
  | [] => []
  | x :: xs => if x ∈ seen then dedupSeen seen xs else x :: dedupSeen (x :: seen) xs

/-- The recipient normalization of `send_email_via_sendgrid`
(sendgrid_utils.py:458-459): trim, drop blanks, deduplicate keeping the first
occurrence. -/
def normalizeRecipients (toEmails : List String) : List String :=
  dedupSeen [] ((toEmails.map pyStrip).filter (fun e => e ≠ ""))

/-- The internal failure row written on invalid input
(sendgrid_utils.py:462-471), passed through the same logging helper. -/
def internalRow (r subject : String) : LogRow :=
  mkRow (if r = "" then "(missing)" else r) (if subject = "" then "(missing)" else subject)
    "internal" { ok := false, status := none, body := "",
                 err := "Missing subject and/or recipients" }

/-- Embeds `send_email_via_sendgrid` (sendgrid_utils.py:451-509).  Returns
`(overall success, log rows written, providers tried)`; an empty provider
list means no transport was invoked, hence no network activity. -/
def send_email_via_sendgrid (prim : Prim) (env : CollectEnv) (modeSetting : String)
    (api smtp : TransportR) (subject : String) (toEmails : List String) :
    Bool × List LogRow × List String :=
  let subject := pyStrip subject
  let recipients := normalizeRecipients toEmails
  if subject = "" ∨ recipients = [] then
    (false, (if recipients = [] then [""] else recipients).map (fun r => internalRow r subject),
     [])
  else
    let mode := get_backend_mode prim env modeSetting
    let providers := if mode = "smtp" then ["smtp", "sendgrid"] else ["sendgrid", "smtp"]
    runProviders api smtp subject recipients providers

/-- The rows produced by the provider loop for a list of tried providers:
one `mkRow` per recipient per provider, in order. -/
def providerRows (api smtp : TransportR) (subj : String) (rs : List String) :
    List String → List LogRow
  | [] => []
  | p :: ps =>
    rs.map (fun r => mkRow r subj p (dispatchTransport api smtp p)) ++
      providerRows api smtp subj rs ps

/-- Identity-style primitives for concrete evaluations: the hash is the
string itself, nothing parses as JSON, base64 decoding is the identity. -/
def primId : Prim := { sha := fun s => s, jp := fun _ => none, b64 := fun s => .ok s }

/-- A 64-character constant hash digest, the output shape of a SHA-256
hexdigest. -/
def shaConst : String → String := fun _ => ⟨List.replicate 64 (Char.ofNat 97)⟩

/-- Primitives whose hash has the fixed 64-character output length of
`hashlib.sha256(...).hexdigest()`. -/
def primConst : Prim := { primId with sha := shaConst }

/-- Primitives whose base64 decoding raises. -/
def primB64Fail : Prim := { primId with b64 := fun _ => .error "Error: Invalid base64" }

/-- An environment with no credential source populated anywhere. -/
def envEmpty : CollectEnv :=
  { secretName := "SendGrid_API", region := "ap-south-1",
    awsBackend := .fetchError "NoCredentialsError" "Unable to locate credentials",
    settingsApiKey := "", settingsHostPassword := "", envApiKey := "", envHostPassword := "" }

/-- An environment with two distinct settings-sourced keys. -/
def envTwo : CollectEnv :=
  { envEmpty with settingsApiKey := "SG.alpha", settingsHostPassword := "SG.beta" }

/-- An environment in which the settings API key and the environment API key
hold byte-identical values. -/
def envDup : CollectEnv :=
  { envEmpty with settingsApiKey := "SG.alpha", envApiKey := "SG.alpha" }

/-- SMTP configuration with an explicitly configured host password. -/
def cfgPw : SmtpCfg :=
  { host := "smtp.sendgrid.net", port := 587, useTls := true, useSsl := false,
    user := "apikey", hostPassword := "sgpw" }

/-- SMTP configuration with no configured host password. -/
def cfgNoPw : SmtpCfg := { cfgPw with hostPassword := "" }

/-- An SMTP session that raises a server disconnect while transmitting on the
first two connection attempts and would succeed from the third attempt on:
the exact scenario of the retry claim. -/
def disconnectTwiceOracle : Nat → SmtpStep → Option SmtpExn := fun attempt s =>
  if attempt < 2 ∧ s = SmtpStep.sendMsg then
    some { name := "SMTPServerDisconnected", msg := "Connection unexpectedly closed" }
  else none

/-- An SMTP session whose authentication step always fails. -/
def loginFailOracle : Nat → SmtpStep → Option SmtpExn := fun _ s =>
  if s = SmtpStep.login then
    some { name := "SMTPAuthenticationError", msg := "535 authentication failed" }
  else none

/-- An SMTP session in which every step succeeds. -/
def okSmtpOracle : Nat → SmtpStep → Option SmtpExn := fun _ _ => none

/-- An HTTP network in which the first request is rejected with 403 and the
second is accepted with 202. -/
def rotOracle : Nat → ApiResult := fun i =>
  if i = 0 then .httpError (some 403) "denied" else .response 202 ""

/-- A failing transport outcome. -/
def apiBad : TransportR := { ok := false, status := some 500, body := "b", err := "HTTP 500" }

/-- A succeeding transport outcome. -/
def smtpOk : TransportR := { ok := true, status := some 250, body := "d", err := "" }

/-- Thirty-three distinct `(secret_name, region)` keys followed by a repeat
of the first one. -/
def names34 : List (String × String) :=
  ((List.range 33).map (fun i => ("s" ++ toString i, "r"))) ++ [("s0", "r")]

/-- A secret-store backend that always returns the same secret string. -/
def backendConst : String × String → AwsFetch := fun _ => .response (some "SG.k") none

/-- The first raw source whose normalized (extracted) key equals `k`. -/
def findRawWithKey (prim : Prim) (k : String) : List (String × String) → Option (String × String)
  | [] => none
  | q :: rest =>
    if extract_sendgrid_key prim q.2 = k then some q else findRawWithKey prim k rest

/-! Helper lemmas. -/

/-- Membership in the deduplicated list implies membership in the input and
absence from the seen accumulator. -/
theorem mem_dedupSeen : ∀ (l seen : List String) (x : String),
    x ∈ dedupSeen seen l → x ∈ l ∧ x ∉ seen := by
  intro l
  induction l with
  | nil => intro seen x h; simp [dedupSeen] at h
  | cons a as ih =>
    intro seen x h
    simp only [dedupSeen] at h
    by_cases ha : a ∈ seen
    · rw [if_pos ha] at h
      rcases ih seen x h with ⟨h1, h2⟩
      exact ⟨List.mem_cons_of_mem _ h1, h2⟩
    · rw [if_neg ha] at h
      rcases List.mem_cons.mp h with rfl | hm
      · exact ⟨List.mem_cons_self _ _, ha⟩
      · rcases ih (a :: seen) x hm with ⟨h1, h2⟩
        exact ⟨List.mem_cons_of_mem _ h1, fun hx => h2 (List.mem_cons_of_mem _ hx)⟩

/-- The deduplicated list has no duplicates. -/
theorem nodup_dedupSeen : ∀ (l seen : List String), (dedupSeen seen l).Nodup := by
  intro l
  induction l with
  | nil => intro seen; simp [dedupSeen]
  | cons a as ih =>
    intro seen
    simp only [dedupSeen]
    by_cases ha : a ∈ seen
    · rw [if_pos ha]; exact ih seen
    · rw [if_neg ha]
      refine List.nodup_cons.mpr ⟨?_, ih (a :: seen)⟩
      intro hmem
      exact (mem_dedupSeen as (a :: seen) a hmem).2 (List.mem_cons_self _ _)

/-- Normalized recipients are non-blank. -/
theorem mem_normalizeRecipients_ne {r : String} {l : List String}
    (h : r ∈ normalizeRecipients l) : r ≠ "" := by
  have h1 := (mem_dedupSeen _ _ _ h).1
  have h2 := List.mem_filter.mp h1
  simpa using h2.2

/-- The normalized recipient list is duplicate-free. -/
theorem nodup_normalizeRecipients (l : List String) : (normalizeRecipients l).Nodup :=
  nodup_dedupSeen _ _

/-- Filtering a mapped list by a predicate that, through the map, tests
equality with `r` counts the occurrences of `r`. -/
theorem length_filter_map_eq_count {α β : Type} [BEq α] [LawfulBEq α]
    (g : α → β) (pred : β → Bool) (r : α) :
    ∀ rs : List α, (∀ x ∈ rs, pred (g x) = (x == r)) →
      ((rs.map g).filter pred).length = rs.count r := by
  intro rs
  induction rs with
  | nil => intro _; simp
  | cons x xs ih =>
    intro h
    have hx := h x (List.mem_cons_self _ _)
    have hxs : ∀ y ∈ xs, pred (g y) = (y == r) :=
      fun y hy => h y (List.mem_cons_of_mem _ hy)
    simp only [List.map_cons, List.filter_cons, hx, List.count_cons]
    cases hb : (x == r) <;> simp [hb, ih hxs]

/-- Filtering a mapped list by a predicate that is false through the map
yields nothing. -/
theorem length_filter_map_eq_zero {α β : Type} (g : α → β) (pred : β → Bool) :
    ∀ rs : List α, (∀ x ∈ rs, pred (g x) = false) →
      ((rs.map g).filter pred).length = 0 := by
  intro rs
  induction rs with
  | nil => intro _; simp
  | cons x xs ih =>
    intro h
    simp only [List.map_cons, List.filter_cons, h x (List.mem_cons_self _ _)]
    simpa using ih (fun y hy => h y (List.mem_cons_of_mem _ hy))

/-- Rows of a provider that was never tried do not appear in the loop log. -/
theorem providerRows_filter_zero (api smtp : TransportR) (subj r p : String)
    (rs : List String) :
    ∀ t : List String, p ∉ t →
      ((providerRows api smtp subj rs t).filter
        (fun row => row.toEmail == r && row.provider == p)).length = 0 := by
  intro t
  induction t with
  | nil => intro _; simp [providerRows]
  | cons q ts ih =>
    intro hp
    have hq : q ≠ p := fun h => hp (h ▸ List.mem_cons_self _ _)
    have hz := length_filter_map_eq_zero
      (fun x => mkRow x subj q (dispatchTransport api smtp q))
      (fun row => row.toEmail == r && row.provider == p) rs
      (by intro x hx; simp [mkRow, beq_eq_false_iff_ne.mpr hq])
    simp only [providerRows, List.filter_append, List.length_append]
    rw [hz, ih (fun h => hp (List.mem_cons_of_mem _ h))]

/-- Exactly one row per (recipient, tried transport) in the loop log. -/
theorem providerRows_filter_one (api smtp : TransportR) (subj r p : String)
    (rs : List String) (hnd : rs.Nodup) (hr : r ∈ rs) :
    ∀ t : List String, t.Nodup → p ∈ t →
      ((providerRows api smtp subj rs t).filter
        (fun row => row.toEmail == r && row.provider == p)).length = 1 := by
  intro t
  induction t with
  | nil => intro _ hp; simp at hp
  | cons q ts ih =>
    intro hnd2 hp
    obtain ⟨hq1, hq2⟩ := List.nodup_cons.mp hnd2
    simp only [providerRows, List.filter_append, List.length_append]
    by_cases hqp : q = p
    · subst hqp
      have h1 := length_filter_map_eq_count
        (fun x => mkRow x subj q (dispatchTransport api smtp q))
        (fun row => row.toEmail == r && row.provider == q) r rs
        (by intro x hx; simp [mkRow])
      rw [h1, providerRows_filter_zero api smtp subj r q rs ts hq1,
        List.count_eq_one_of_mem hnd hr]
    · have hz := length_filter_map_eq_zero
        (fun x => mkRow x subj q (dispatchTransport api smtp q))
        (fun row => row.toEmail == r && row.provider == p) rs
        (by intro x hx; simp [mkRow, beq_eq_false_iff_ne.mpr hqp])
      rw [hz, ih hq2 ((List.mem_cons.mp hp).resolve_left (fun h => hqp h.symm))]

/-- Every row produced by the provider loop belongs to a recipient and a
tried provider. -/
theorem mem_providerRows (api smtp : TransportR) (subj : String) (rs : List String) :
    ∀ t row, row ∈ providerRows api smtp subj rs t →
      row.toEmail ∈ rs ∧ row.provider ∈ t := by
  intro t
  induction t with
  | nil => intro row h; simp [providerRows] at h
  | cons q ts ih =>
    intro row h
    rcases List.mem_append.mp h with hl | hr2
    · rcases List.mem_map.mp hl with ⟨x, hx, rfl⟩
      exact ⟨by simpa [mkRow] using hx, by simp [mkRow]⟩
    · rcases ih row hr2 with ⟨h1, h2⟩
      exact ⟨h1, List.mem_cons_of_mem _ h2⟩

/-- The providers actually tried form a sublist of the configured provider
order. -/
theorem runProviders_tried_sublist (api smtp : TransportR) (subj : String)
    (rs : List String) : ∀ ps, ((runProviders api smtp subj rs ps).2.2).Sublist ps := by
  intro ps
  induction ps with
  | nil => simp [runProviders]
  | cons p ps ih =>
    simp only [runProviders]
    split
    · exact (List.nil_sublist ps).cons₂ p
    · exact ih.cons₂ p

/-- The log written by the provider loop is exactly the per-recipient rows of
the providers actually tried. -/
theorem runProviders_log_eq (api smtp : TransportR) (subj : String) (rs : List String) :
    ∀ ps, (runProviders api smtp subj rs ps).2.1 =
      providerRows api smtp subj rs (runProviders api smtp subj rs ps).2.2 := by
  intro ps
  induction ps with
  | nil => simp [runProviders, providerRows]
  | cons p ps ih =>
    simp only [runProviders]
    split
    · simp [providerRows]
    · simp [providerRows, ih]

/-- Every emitted candidate carries a non-blank key. -/
theorem dedupCandidates_key_ne (prim : Prim) :
    ∀ (raws : List (String × String)) (seen : List String) (c : KeyCandidate),
      c ∈ dedupCandidates prim raws seen → c.key ≠ "" := by
  intro raws
  induction raws with
  | nil => intro seen c h; simp [dedupCandidates] at h
  | cons q rest ih =>
    intro seen c h
    obtain ⟨src, raw⟩ := q
    simp only [dedupCandidates] at h
    by_cases h1 : extract_sendgrid_key prim raw = ""
    · rw [if_pos h1] at h; exact ih seen c h
    · rw [if_neg h1] at h
      by_cases h2 : fingerprint prim (extract_sendgrid_key prim raw) ∈ seen
      · rw [if_pos h2] at h; exact ih seen c h
      · rw [if_neg h2] at h
        rcases List.mem_cons.mp h with rfl | hm
        · exact h1
        · exact ih _ c hm

/-- Deduplication never lengthens the candidate list. -/
theorem dedupCandidates_length_le (prim : Prim) :
    ∀ (raws : List (String × String)) (seen : List String),
      (dedupCandidates prim raws seen).length ≤ raws.length := by
  intro raws
  induction raws with
  | nil => intro seen; simp [dedupCandidates]
  | cons q rest ih =>
    intro seen
    obtain ⟨src, raw⟩ := q
    simp only [dedupCandidates]
    by_cases h1 : extract_sendgrid_key prim raw = ""
    · rw [if_pos h1]; exact (ih seen).trans (Nat.le_succ _)
    · rw [if_neg h1]
      by_cases h2 : fingerprint prim (extract_sendgrid_key prim raw) ∈ seen
      · rw [if_pos h2]; exact (ih seen).trans (Nat.le_succ _)
      · rw [if_neg h2]
        simpa using Nat.succ_le_succ (ih _)

/-- Once a fingerprint has been seen, no candidate with a key of that
fingerprint is emitted any more. -/
theorem dedupCandidates_filter_nil (prim : Prim) :
    ∀ (raws : List (String × String)) (seen : List String) (k : String),
      fingerprint prim k ∈ seen →
      (dedupCandidates prim raws seen).filter (fun c => c.key == k) = [] := by
  intro raws
  induction raws with
  | nil => intro seen k _; simp [dedupCandidates]
  | cons q rest ih =>
    intro seen k hk
    obtain ⟨src, raw⟩ := q
    simp only [dedupCandidates]
    by_cases h1 : extract_sendgrid_key prim raw = ""
    · rw [if_pos h1]; exact ih seen k hk
    · rw [if_neg h1]
      by_cases h2 : fingerprint prim (extract_sendgrid_key prim raw) ∈ seen
      · rw [if_pos h2]; exact ih seen k hk
      · rw [if_neg h2]
        have hne : extract_sendgrid_key prim raw ≠ k := fun he => h2 (he ▸ hk)
        simp only [List.filter_cons]
        have hfalse : ((⟨src, extract_sendgrid_key prim raw⟩ : KeyCandidate).key == k) = false :=
          beq_eq_false_iff_ne.mpr hne
        simp only [hfalse, Bool.false_eq_true, if_false]
        exact ih _ k (List.mem_cons_of_mem _ hk)

/-- Specification of `findRawWithKey`: a found entry is a member whose
extracted key is the searched one. -/
theorem findRawWithKey_spec (prim : Prim) (k : String) :
    ∀ (raws : List (String × String)) (p0 : String × String),
      findRawWithKey prim k raws = some p0 →
      p0 ∈ raws ∧ extract_sendgrid_key prim p0.2 = k := by
  intro raws
  induction raws with
  | nil => intro p0 h; simp [findRawWithKey] at h
  | cons q rest ih =>
    intro p0 h
    simp only [findRawWithKey] at h
    by_cases hq : extract_sendgrid_key prim q.2 = k
    · rw [if_pos hq] at h
      obtain rfl := Option.some.inj h
      exact ⟨List.mem_cons_self _ _, hq⟩
    · rw [if_neg hq] at h
      rcases ih p0 h with ⟨h1, h2⟩
      exact ⟨List.mem_cons_of_mem _ h1, h2⟩

/-- First-occurrence-wins deduplication: under fingerprint injectivity on the
raw sources, the emitted candidates contain exactly one entry with key `k`,
namely the one of the first raw source whose normalized key is `k`. -/
theorem dedupCandidates_filter_first (prim : Prim) :
    ∀ (raws : List (String × String)) (seen : List String) (k : String)
      (p0 : String × String),
      (∀ a ∈ raws, ∀ b ∈ raws,
        fingerprint prim (extract_sendgrid_key prim a.2) =
          fingerprint prim (extract_sendgrid_key prim b.2) →
        extract_sendgrid_key prim a.2 = extract_sendgrid_key prim b.2) →
      k ≠ "" →
      fingerprint prim k ∉ seen →
      findRawWithKey prim k raws = some p0 →
      (dedupCandidates prim raws seen).filter (fun c => c.key == k) = [⟨p0.1, k⟩] := by
  intro raws
  induction raws with
  | nil => intro seen k p0 _ _ _ hf; simp [findRawWithKey] at hf
  | cons q rest ih =>
    intro seen k p0 hinj hk hseen hf
    obtain ⟨src, raw⟩ := q
    simp only [findRawWithKey] at hf
    simp only [dedupCandidates]
    by_cases hq : extract_sendgrid_key prim (src, raw).2 = k
    · rw [if_pos hq] at hf
      obtain rfl := Option.some.inj hf
      have hq' : extract_sendgrid_key prim raw = k := hq
      rw [if_neg (by rw [hq']; exact hk)]
      rw [if_neg (by rw [hq']; exact hseen)]
      simp only [List.filter_cons]
      have htrue : ((⟨src, extract_sendgrid_key prim raw⟩ : KeyCandidate).key == k) = true :=
        beq_iff_eq.mpr hq'
      simp only [htrue, if_true]
      rw [dedupCandidates_filter_nil prim rest _ k (by rw [hq']; exact List.mem_cons_self _ _)]
      rw [hq']
    · rw [if_neg hq] at hf
      have hq' : extract_sendgrid_key prim raw ≠ k := hq
      have hinj' : ∀ a ∈ rest, ∀ b ∈ rest,
          fingerprint prim (extract_sendgrid_key prim a.2) =
            fingerprint prim (extract_sendgrid_key prim b.2) →
          extract_sendgrid_key prim a.2 = extract_sendgrid_key prim b.2 :=
        fun a ha b hb => hinj a (List.mem_cons_of_mem _ ha) b (List.mem_cons_of_mem _ hb)
      by_cases h1 : extract_sendgrid_key prim raw = ""
      · rw [if_pos h1]; exact ih seen k p0 hinj' hk hseen hf
      · rw [if_neg h1]
        by_cases h2 : fingerprint prim (extract_sendgrid_key prim raw) ∈ seen
        · rw [if_pos h2]; exact ih seen k p0 hinj' hk hseen hf
        · rw [if_neg h2]
          simp only [List.filter_cons]
          have hfalse :
              ((⟨src, extract_sendgrid_key prim raw⟩ : KeyCandidate).key == k) = false :=
            beq_eq_false_iff_ne.mpr hq'
          simp only [hfalse, Bool.false_eq_true, if_false]
          have hp0 := findRawWithKey_spec prim k rest p0 hf
          have hne : fingerprint prim k ≠ fingerprint prim (extract_sendgrid_key prim raw) := by
            intro he
            have := hinj (src, raw) (List.mem_cons_self _ _) p0
              (List.mem_cons_of_mem _ hp0.1) (by rw [hp0.2, ← he])
            exact hq' (this.trans hp0.2)
          refine ih _ k p0 hinj' hk ?_ hf
          intro hmem
          rcases List.mem_cons.mp hmem with he | hm
          · exact hne he
          · exact hseen hm

/-- The candidate loop makes at most one HTTP request per candidate. -/
theorem apiLoop_calls_le (oracle : Nat → ApiResult) :
    ∀ (cs : List KeyCandidate) (i : Nat) (ls : Option Nat) (le : String),
      (apiLoop oracle i ls le cs).2 ≤ i + cs.length := by
  intro cs
  induction cs with
  | nil => intro i ls le; simp [apiLoop]
  | cons c cs ih =>
    intro i ls le
    simp only [apiLoop, List.length_cons]
    cases h : oracle i with
    | response st body =>
      dsimp only
      by_cases h1 : 200 ≤ st ∧ st < 300
      · rw [if_pos h1]; omega
      · rw [if_neg h1]
        by_cases h2 : st = 401 ∨ st = 403
        · rw [if_pos h2]
          have := ih (i + 1) (some st) ("HTTP " ++ toString st)
          omega
        · rw [if_neg h2]; omega
    | httpError st body =>
      dsimp only
      by_cases h2 : st = some 401 ∨ st = some 403
      · rw [if_pos h2]
        have := ih (i + 1) st ("HTTPError " ++ optStatusStr st)
        omega
      · rw [if_neg h2]; omega
    | urlError m => dsimp only; omega
    | otherExn n m => dsimp only; omega

/-- The raw candidate list has at most five entries. -/
theorem candidatesRaw_length_le (prim : Prim) (env : CollectEnv) :
    (candidatesRaw prim env).length ≤ 5 := by
  simp only [candidatesRaw]
  split <;> simp

/-- An executed step produces a connect event exactly for the connect step. -/
theorem stepEvent_connect_iff (u pw : String) (s : SmtpStep) :
    stepEvent u pw s = SEvent.connectEv ↔ s = SmtpStep.connect := by
  cases s <;> simp [stepEvent]

/-- The events of one connection attempt contain no more connect events than
the step list contains connect steps. -/
theorem runSteps_count_connect (oracle : Nat → SmtpStep → Option SmtpExn) (a : Nat)
    (u pw : String) :
    ∀ steps : List SmtpStep,
      ((runSteps oracle a u pw steps).2).count SEvent.connectEv ≤
        steps.count SmtpStep.connect := by
  intro steps
  induction steps with
  | nil => simp [runSteps]
  | cons s rest ih =>
    simp only [runSteps, List.count_cons]
    cases h : oracle a s with
    | some e =>
      simp only [List.count_singleton]
      by_cases hs : s = SmtpStep.connect
      · subst hs
        simp [stepEvent]
      · have : (stepEvent u pw s == SEvent.connectEv) = false :=
          beq_eq_false_iff_ne.mpr (fun he => hs ((stepEvent_connect_iff u pw s).mp he))
        simp [this]
    | none =>
      simp only [List.count_cons]
      by_cases hs : s = SmtpStep.connect
      · subst hs
        simp only [stepEvent]
        have h1 : (SEvent.connectEv == SEvent.connectEv) = true := beq_self_eq_true _
        have h2 : (SmtpStep.connect == SmtpStep.connect) = true := beq_self_eq_true _
        simp only [h1, h2, if_true]
        omega
      · have h1 : (stepEvent u pw s == SEvent.connectEv) = false :=
          beq_eq_false_iff_ne.mpr (fun he => hs ((stepEvent_connect_iff u pw s).mp he))
        have h2 : (s == SmtpStep.connect) = false := beq_eq_false_iff_ne.mpr hs
        simp only [h1, h2, Bool.false_eq_true, if_false]
        omega

/-- Each TLS configuration has exactly one connect step. -/
theorem fatalSteps_count_connect (t s : Bool) :
    (fatalSteps t s).count SmtpStep.connect = 1 := by
  cases t <;> cases s <;> decide

/-- Each TLS configuration contains the login step. -/
theorem fatalSteps_login_mem (t s : Bool) : SmtpStep.login ∈ fatalSteps t s := by
  cases t <;> cases s <;> decide

/-- A fully successful attempt executes every fatal step. -/
theorem runSteps_none_events (oracle : Nat → SmtpStep → Option SmtpExn) (a : Nat)
    (u pw : String) :
    ∀ steps : List SmtpStep, (runSteps oracle a u pw steps).1 = none →
      (runSteps oracle a u pw steps).2 = steps.map (stepEvent u pw) := by
  intro steps
  induction steps with
  | nil => intro _; simp [runSteps]
  | cons s rest ih =>
    intro hnone
    simp only [runSteps] at hnone ⊢
    cases h : oracle a s with
    | some e => rw [h] at hnone; simp at hnone
    | none =>
      rw [h] at hnone
      dsimp only at hnone ⊢
      simp only [List.map_cons, List.cons.injEq, true_and]
      exact ih hnone

/-- A member on which the keep-predicate fails makes the filtered list
strictly shorter. -/
theorem length_filter_lt_of_pred_false {α : Type} (pred : α → Bool) :
    ∀ (l : List α) (a : α), a ∈ l → pred a = false →
      (l.filter pred).length < l.length := by
  intro l
  induction l with
  | nil => intro a ha _; simp at ha
  | cons b bs ih =>
    intro a ha hpa
    rcases List.mem_cons.mp ha with rfl | hm
    · simp only [List.filter_cons, hpa, Bool.false_eq_true, if_false, List.length_cons]
      exact Nat.lt_succ_of_le (List.length_filter_le pred bs)
    · cases hb : pred b
      · simp only [List.filter_cons, hb, Bool.false_eq_true, if_false, List.length_cons]
        exact Nat.lt_succ_of_le (Nat.le_of_lt (ih a hm hpa))
      · simp only [List.filter_cons, hb, if_true, List.length_cons]
        exact Nat.succ_lt_succ (ih a hm hpa)

/-- A cache hit returns the cached value without running the wrapped
function. -/
theorem lruGet_hit {K V : Type} [DecidableEq K] (m : Nat) (c : Lru K V) (k : K) (v : V)
    (f : K → V) (h : lruLookup c k = some v) :
    (lruGet m c k f).1 = v ∧ (lruGet m c k f).2.2 = false := by
  unfold lruLookup at h
  cases hf : c.entries.find? (fun p => p.1 = k) with
  | none => rw [hf] at h; simp at h
  | some p =>
    rw [hf] at h
    have hp2 : p.2 = v := by simpa using h
    simp [lruGet, hf, hp2]

/-- After any call within the size bound, the requested key is cached with
the returned value. -/
theorem lruGet_lookup_after {K V : Type} [DecidableEq K] (c : Lru K V) (k : K)
    (f : K → V) :
    lruLookup (lruGet 32 c k f).2.1 k = some ((lruGet 32 c k f).1) := by
  cases hf : c.entries.find? (fun p => p.1 = k) with
  | some p =>
    simp only [lruGet, hf, lruLookup]
    rw [List.find?_cons]
    simp
  | none =>
    simp only [lruGet, hf, lruLookup]
    by_cases h32 : 32 < ((k, f k) :: c.entries).length
    · rw [if_pos h32]
      simp only [List.length_cons] at h32
      cases hc : c.entries with
      | nil => rw [hc] at h32; simp at h32
      | cons e es =>
        rw [List.dropLast_cons₂]
        rw [List.find?_cons]
        simp
    · rw [if_neg h32]
      rw [List.find?_cons]
      simp

/-- The cache never exceeds the size bound. -/
theorem lruGet_bound {K V : Type} [DecidableEq K] (c : Lru K V) (k : K)
    (f : K → V) (h : c.entries.length ≤ 32) :
    ((lruGet 32 c k f).2.1).entries.length ≤ 32 := by
  cases hf : c.entries.find? (fun p => p.1 = k) with
  | some p =>
    simp only [lruGet, hf, List.length_cons]
    have hp1 := List.find?_some hf
    simp only [decide_eq_true_eq] at hp1
    have hmem := List.mem_of_find?_eq_some hf
    have hfalse : (fun q : K × V => decide ¬ q.1 = k) p = false := by
      simp [hp1]
    have := length_filter_lt_of_pred_false (fun q : K × V => decide ¬ q.1 = k)
      c.entries p hmem hfalse
    omega
  | none =>
    simp only [lruGet, hf]
    by_cases h32 : 32 < ((k, f k) :: c.entries).length
    · rw [if_pos h32]
      rw [List.length_dropLast]
      simp only [List.length_cons]
      omega
    · rw [if_neg h32]
      simp only [List.length_cons] at h32 ⊢
      omega

/-- Error strings of the `<name>: <msg>` shape are never blank. -/
theorem colon_append_ne_empty (n m : String) : n ++ ": " ++ m ≠ "" := by
  intro h
  have h2 := congrArg String.length h
  rw [String.length_append, String.length_append] at h2
  have h3 : (": ").length = 2 := rfl
  have h4 : ("" : String).length = 0 := rfl
  omega

/-- Bounds of the clamped tail length. -/
theorem clampTailChars_bounds (envVal : Option Int) :
    2 ≤ clampTailChars envVal ∧ clampTailChars envVal ≤ 12 := by
  cases envVal with
  | none => decide
  | some v =>
    constructor <;> (simp only [clampTailChars, Option.getD]; omega)

/-- Whenever the binary branch reports an error, it returns no value. -/
theorem getSecretBinaryPart_err (prim : Prim) (sb : Option String) :
    (getSecretBinaryPart prim sb).2 ≠ "" → (getSecretBinaryPart prim sb).1 = none := by
  cases sb with
  | none => intro _; rfl
  | some b =>
    by_cases hb : b = ""
    · subst hb; intro _; simp [getSecretBinaryPart]
    · cases hd : prim.b64 b with
      | ok u => intro h; simp [getSecretBinaryPart, hb, hd] at h
      | error em => intro _; simp [getSecretBinaryPart, hb, hd]

/-! Claim theorems. -/

/-- C8: the secret resolver `get_secret_string` never raises — it is a total
function into a `(value, lastError)` pair — and each failure mode (missing
backend library, any client exception: missing credentials, network failure,
access denied, not found; base64 decode failure of a binary secret) yields an
absent value together with a descriptive non-blank error string retrievable
via `get_last_error`; a binary secret is base64-decoded and a successful
fetch carries no error. -/
theorem c8_resolver_never_raises (prim : Prim) :
    (get_secret_string prim AwsFetch.noBoto3 = (none, "boto3_unavailable")) ∧
    (∀ n m, get_secret_string prim (AwsFetch.fetchError n m) = (none, n ++ ": " ++ m) ∧
      n ++ ": " ++ m ≠ "") ∧
    (∀ ss sb b em, (ss = none ∨ ss = some "") → sb = some b → b ≠ "" →
      prim.b64 b = Except.error em →
      get_secret_string prim (AwsFetch.response ss sb) = (none, "decode_error:" ++ em)) ∧
    (∀ ss sb b u, (ss = none ∨ ss = some "") → sb = some b → b ≠ "" →
      prim.b64 b = Except.ok u →
      get_secret_string prim (AwsFetch.response ss sb) = (some (pyStrip u), "")) ∧
    (∀ s sb, s ≠ "" →
      get_secret_string prim (AwsFetch.response (some s) sb) = (some (pyStrip s), "")) ∧
    (∀ backend, (get_secret_string prim backend).2 ≠ "" →
      (get_secret_string prim backend).1 = none) := by
  refine ⟨rfl, ?_, ?_, ?_, ?_, ?_⟩
  · intro n m
    exact ⟨rfl, colon_append_ne_empty n m⟩
  · intro ss sb b em hss hsb hb hdec
    subst hsb
    rcases hss with rfl | rfl <;>
      simp [get_secret_string, getSecretBinaryPart, hb, hdec]
  · intro ss sb b u hss hsb hb hdec
    subst hsb
    rcases hss with rfl | rfl <;>
      simp [get_secret_string, getSecretBinaryPart, hb, hdec]
  · intro s sb hs
    simp [get_secret_string, hs]
  · intro backend herr
    cases backend with
    | noBoto3 => rfl
    | fetchError n m => rfl
    | response ss sb =>
      cases ss with
      | none => exact getSecretBinaryPart_err prim sb herr
      | some s =>
        by_cases hs : s = ""
        · subst hs
          have hred : get_secret_string prim (AwsFetch.response (some "") sb) =
              getSecretBinaryPart prim sb := by simp [get_secret_string]
          rw [hred] at herr ⊢
          exact getSecretBinaryPart_err prim sb herr
        · have hred : get_secret_string prim (AwsFetch.response (some s) sb) =
              (some (pyStrip s), "") := by simp [get_secret_string, hs]
          rw [hred] at herr
          simp at herr

/-- Witness for C8 at concrete inputs: a client exception, a binary-secret
decode failure, and a plain successful fetch. -/
theorem c8_resolver_never_raises_witness :
    get_secret_string primId (AwsFetch.fetchError "ClientError" "AccessDenied") =
      (none, "ClientError: AccessDenied") ∧
    get_secret_string primB64Fail (AwsFetch.response none (some "!!!!")) =
      (none, "decode_error:Error: Invalid base64") ∧
    get_secret_string primId (AwsFetch.response (some "SG.key") none) =
      (some "SG.key", "") := by
  obtain ⟨_, h2, _, _, _, _⟩ := c8_resolver_never_raises primId
  obtain ⟨_, _, h3b, _, _, _⟩ := c8_resolver_never_raises primB64Fail
  obtain ⟨_, _, _, _, h5, _⟩ := c8_resolver_never_raises primId
  refine ⟨(h2 "ClientError" "AccessDenied").1, ?_, ?_⟩
  · exact h3b none (some "!!!!") "!!!!" "Error: Invalid base64" (Or.inl rfl) rfl
      (by decide) rfl
  · have h := h5 "SG.key" none (by decide)
    have hp : pyStrip "SG.key" = "SG.key" := by decide
    rw [hp] at h
    exact h

/-- C9 counterexample: `_fingerprint` is not fixed-length.  With a hash of
the fixed 64-character hexdigest output length of SHA-256, the fingerprint of
a 5-character secret has 28 characters while that of a 10-character secret
has 29: the `len=<N>` prefix grows with the number of decimal digits of the
secret length, so the claim that the fingerprint function returns a
fixed-length value is false. -/
theorem c9_counterexample :
    (shaConst "aaaaa").length = 64 ∧ (shaConst "aaaaaaaaaa").length = 64 ∧
    (fingerprint primConst "aaaaa").length = 28 ∧
    (fingerprint primConst "aaaaaaaaaa").length = 29 ∧
    (fingerprint primConst "aaaaa").length ≠ (fingerprint primConst "aaaaaaaaaa").length := by
  decide

/-- C9 (amended): for every non-empty secret the fingerprint has the fixed
format `len=<decimal length> sha256_12=<hash snippet>` whose hash snippet is
at most 12 characters (the overall string length varies only with the number
of decimal digits of the secret length), and the redaction helper reveals at
most `n` trailing characters of the secret with `n` clamped between 2 and 12,
or the placeholder `<short>` for secrets shorter than `n`. -/
theorem c9_redaction_bounds (prim : Prim) (s : String) (h : s ≠ "") (envVal : Option Int) :
    fingerprint prim s =
      "len=" ++ toString s.length ++ " sha256_12=" ++ strTake (prim.sha s) 12 ∧
    (strTake (prim.sha s) 12).length ≤ 12 ∧
    2 ≤ clampTailChars envVal ∧ clampTailChars envVal ≤ 12 ∧
    (candidateTail envVal s = "<short>" ∨
      (candidateTail envVal s = strTakeRight s (clampTailChars envVal) ∧
        (candidateTail envVal s).length ≤ clampTailChars envVal)) := by
  refine ⟨by rw [fingerprint, if_neg h], ?_, (clampTailChars_bounds envVal).1,
    (clampTailChars_bounds envVal).2, ?_⟩
  · show ((prim.sha s).data.take 12).length ≤ 12
    rw [List.length_take]
    omega
  · by_cases hsn : s.length < max 1 (clampTailChars envVal)
    · exact Or.inl (by rw [candidateTail, redacted_tail, if_pos hsn])
    · refine Or.inr ⟨by rw [candidateTail, redacted_tail, if_neg hsn], ?_⟩
      have h2 := (clampTailChars_bounds envVal).1
      rw [candidateTail, redacted_tail, if_neg hsn, strTakeRight, if_neg (by omega)]
      show ((s.data.drop (s.data.length - clampTailChars envVal)).length) ≤ _
      rw [List.length_drop]
      omega

/-- Witness for C9 (amended) at a concrete secret and an unset tail-length
variable. -/
theorem c9_redaction_bounds_witness :
    2 ≤ clampTailChars none ∧ clampTailChars none ≤ 12 ∧
    (candidateTail none "sgkey" = "<short>" ∨
      (candidateTail none "sgkey" = strTakeRight "sgkey" (clampTailChars none) ∧
        (candidateTail none "sgkey").length ≤ clampTailChars none)) := by
  have h := c9_redaction_bounds primConst "sgkey" (by decide) none
  exact ⟨h.2.2.1, h.2.2.2.1, h.2.2.2.2⟩

/-- C10: for every configuration and environment the credential collector
returns at most 5 candidates (one per raw source before deduplication), and
consequently one `_send_via_sendgrid_api` call makes at most 5 HTTP
requests. -/
theorem c10_bounded_candidates_and_requests (prim : Prim) (env : CollectEnv)
    (oracle : Nat → ApiResult) :
    (iter_sendgrid_api_key_candidates prim env).1.length ≤ 5 ∧
    (send_via_sendgrid_api prim env oracle).2 ≤ 5 := by
  have h1 := dedupCandidates_length_le prim (candidatesRaw prim env) []
  have h2 := candidatesRaw_length_le prim env
  have hlen : (iter_sendgrid_api_key_candidates prim env).1.length ≤ 5 := by
    show (dedupCandidates prim (candidatesRaw prim env) []).length ≤ 5
    omega
  refine ⟨hlen, ?_⟩
  simp only [send_via_sendgrid_api]
  cases hc : (iter_sendgrid_api_key_candidates prim env).1 with
  | nil => simp
  | cons c cs =>
    have h3 := apiLoop_calls_le oracle (c :: cs) 0 none ""
    have h4 : (c :: cs).length ≤ 5 := by rw [← hc]; exact hlen
    dsimp only
    omega

/-- C6 counterexample: the secret cache is not unbounded and not append-only.
`get_secret_string` is wrapped in `lru_cache(maxsize=32)`, so after 33
distinct `(secret_name, region)` keys the least-recently-used entry is
evicted: the request sequence below holds only 33 distinct keys, yet the
wrapped fetch runs 34 times — the repeated first name is fetched again
instead of being served from the cache, contradicting the claim that
repeated calls with the same secret name never refetch. -/
theorem c6_counterexample :
    names34.length = 34 ∧
    names34.dedup.length = 33 ∧
    (lruRun 32 (fun p => (get_secret_string primId (backendConst p)).1)
      (⟨[]⟩ : Lru (String × String) (Option String)) names34).1 = 34 := by
  refine ⟨by decide, by decide, by decide⟩

/-- C6 (amended): secret lookups (successful or failed) are memoized per
`(secret_name, region)` key in an LRU cache bounded at 32 entries: a request
for a currently-cached key returns the cached value without running the
fetch, after any request the requested key is cached with the returned
value, and the cache never grows beyond 32 entries (evicting the
least-recently-used entry instead); it is never invalidated other than by
that eviction. -/
theorem c6_lru_bounded_memoization (prim : Prim)
    (backendOf : String × String → AwsFetch)
    (c : Lru (String × String) (Option String)) (name region : String) (v : Option String) :
    (lruLookup c (name, region) = some v →
      (get_secret_string_cached prim backendOf c name region).1 = v ∧
      (get_secret_string_cached prim backendOf c name region).2.2 = false) ∧
    (lruLookup (get_secret_string_cached prim backendOf c name region).2.1 (name, region) =
      some ((get_secret_string_cached prim backendOf c name region).1)) ∧
    (c.entries.length ≤ 32 →
      ((get_secret_string_cached prim backendOf c name region).2.1).entries.length ≤ 32) := by
  refine ⟨?_, ?_, ?_⟩
  · intro h
    exact lruGet_hit 32 c (name, region) v _ h
  · exact lruGet_lookup_after c (name, region) _
  · intro h
    exact lruGet_bound c (name, region) _ h

/-- Witness for C6 (amended) at a concrete one-entry cache. -/
theorem c6_lru_bounded_memoization_witness :
    (get_secret_string_cached primId backendConst ⟨[(("a", "r"), some "v")]⟩ "a" "r").1 =
      some "v" ∧
    (get_secret_string_cached primId backendConst ⟨[(("a", "r"), some "v")]⟩ "a" "r").2.2 =
      false ∧
    ((get_secret_string_cached primId backendConst
      ⟨[(("a", "r"), some "v")]⟩ "a" "r").2.1).entries.length ≤ 32 := by
  obtain ⟨h1, _, h3⟩ := c6_lru_bounded_memoization primId backendConst
    ⟨[(("a", "r"), some "v")]⟩ "a" "r" (some "v")
  have hh := h1 (by decide)
  exact ⟨hh.1, hh.2, h3 (by decide)⟩

/-- C2: the credential-rotation policy of the API sender.  With no candidate at
all the call fails with the no-candidates diagnostic and makes zero HTTP
requests; a 2xx response succeeds with the current candidate and stops; a 401
or 403 (returned or raised) records the failure and rotates to the next
candidate; any other status, `URLError` or other network error records the
failure and stops without trying further candidates.  In particular, a first
candidate rejected with 403 followed by a second accepted with 202 yields
success via the second candidate after exactly two HTTP requests. -/
theorem c2_api_rotation_policy :
    (∀ (prim : Prim) (env : CollectEnv) (oracle : Nat → ApiResult),
      (iter_sendgrid_api_key_candidates prim env).1 = [] →
      send_via_sendgrid_api prim env oracle =
        ({ success := false, status := none, selectedSource := none,
           error := "No SendGrid API key candidates found" }, 0)) ∧
    (∀ (oracle : Nat → ApiResult) (i : Nat) (ls : Option Nat) (le : String)
      (c : KeyCandidate) (cs : List KeyCandidate) (st : Nat) (body : String),
      oracle i = ApiResult.response st body → 200 ≤ st → st < 300 →
      apiLoop oracle i ls le (c :: cs) =
        ({ success := true, status := some st, selectedSource := some c.source,
           error := "" }, i + 1)) ∧
    (∀ (oracle : Nat → ApiResult) (i : Nat) (ls : Option Nat) (le : String)
      (c : KeyCandidate) (cs : List KeyCandidate) (st : Nat) (body : String),
      oracle i = ApiResult.response st body → (st = 401 ∨ st = 403) →
      apiLoop oracle i ls le (c :: cs) =
        apiLoop oracle (i + 1) (some st) ("HTTP " ++ toString st) cs) ∧
    (∀ (oracle : Nat → ApiResult) (i : Nat) (ls : Option Nat) (le : String)
      (c : KeyCandidate) (cs : List KeyCandidate) (st : Nat) (body : String),
      oracle i = ApiResult.httpError (some st) body → (st = 401 ∨ st = 403) →
      apiLoop oracle i ls le (c :: cs) =
        apiLoop oracle (i + 1) (some st) ("HTTPError " ++ toString st) cs) ∧
    (∀ (oracle : Nat → ApiResult) (i : Nat) (ls : Option Nat) (le : String)
      (c : KeyCandidate) (cs : List KeyCandidate) (st : Nat) (body : String),
      oracle i = ApiResult.response st body → ¬(200 ≤ st ∧ st < 300) →
      st ≠ 401 → st ≠ 403 →
      apiLoop oracle i ls le (c :: cs) =
        (apiFail (some st) ("HTTP " ++ toString st), i + 1)) ∧
    (∀ (oracle : Nat → ApiResult) (i : Nat) (ls : Option Nat) (le : String)
      (c : KeyCandidate) (cs : List KeyCandidate) (st : Option Nat) (body : String),
      oracle i = ApiResult.httpError st body → ¬(st = some 401 ∨ st = some 403) →
      apiLoop oracle i ls le (c :: cs) =
        (apiFail st ("HTTPError " ++ optStatusStr st), i + 1)) ∧
    (∀ (oracle : Nat → ApiResult) (i : Nat) (ls : Option Nat) (le : String)
      (c : KeyCandidate) (cs : List KeyCandidate) (m : String),
      oracle i = ApiResult.urlError m →
      apiLoop oracle i ls le (c :: cs) = (apiFail none ("URLError: " ++ m), i + 1)) ∧
    (∀ (prim : Prim) (env : CollectEnv) (oracle : Nat → ApiResult)
      (c1 c2 : KeyCandidate) (rest : List KeyCandidate) (b1 b2 : String),
      (iter_sendgrid_api_key_candidates prim env).1 = c1 :: c2 :: rest →
      oracle 0 = ApiResult.httpError (some 403) b1 →
      oracle 1 = ApiResult.response 202 b2 →
      send_via_sendgrid_api prim env oracle =
        ({ success := true, status := some 202, selectedSource := some c2.source,
           error := "" }, 2)) := by
  have hempty : ∀ (prim : Prim) (env : CollectEnv) (oracle : Nat → ApiResult),
      (iter_sendgrid_api_key_candidates prim env).1 = [] →
      send_via_sendgrid_api prim env oracle =
        ({ success := false, status := none, selectedSource := none,
           error := "No SendGrid API key candidates found" }, 0) := by
    intro prim env oracle h
    simp only [send_via_sendgrid_api]
    rw [h]
  have h2xx : ∀ (oracle : Nat → ApiResult) (i : Nat) (ls : Option Nat) (le : String)
      (c : KeyCandidate) (cs : List KeyCandidate) (st : Nat) (body : String),
      oracle i = ApiResult.response st body → 200 ≤ st → st < 300 →
      apiLoop oracle i ls le (c :: cs) =
        ({ success := true, status := some st, selectedSource := some c.source,
           error := "" }, i + 1) := by
    intro oracle i ls le c cs st body h hle hlt
    simp only [apiLoop, h]
    rw [if_pos ⟨hle, hlt⟩]
  have hrot1 : ∀ (oracle : Nat → ApiResult) (i : Nat) (ls : Option Nat) (le : String)
      (c : KeyCandidate) (cs : List KeyCandidate) (st : Nat) (body : String),
      oracle i = ApiResult.response st body → (st = 401 ∨ st = 403) →
      apiLoop oracle i ls le (c :: cs) =
        apiLoop oracle (i + 1) (some st) ("HTTP " ++ toString st) cs := by
    intro oracle i ls le c cs st body h hor
    simp only [apiLoop, h]
    rw [if_neg (by rcases hor with rfl | rfl <;> omega), if_pos hor]
  have hrot2 : ∀ (oracle : Nat → ApiResult) (i : Nat) (ls : Option Nat) (le : String)
      (c : KeyCandidate) (cs : List KeyCandidate) (st : Nat) (body : String),
      oracle i = ApiResult.httpError (some st) body → (st = 401 ∨ st = 403) →
      apiLoop oracle i ls le (c :: cs) =
        apiLoop oracle (i + 1) (some st) ("HTTPError " ++ toString st) cs := by
    intro oracle i ls le c cs st body h hor
    simp only [apiLoop, h]
    rw [if_pos (by rcases hor with rfl | rfl
                   · exact Or.inl rfl
                   · exact Or.inr rfl)]
    simp [optStatusStr]
  have hhard1 : ∀ (oracle : Nat → ApiResult) (i : Nat) (ls : Option Nat) (le : String)
      (c : KeyCandidate) (cs : List KeyCandidate) (st : Nat) (body : String),
      oracle i = ApiResult.response st body → ¬(200 ≤ st ∧ st < 300) →
      st ≠ 401 → st ≠ 403 →
      apiLoop oracle i ls le (c :: cs) =
        (apiFail (some st) ("HTTP " ++ toString st), i + 1) := by
    intro oracle i ls le c cs st body h h1 h401 h403
    simp only [apiLoop, h]
    rw [if_neg h1, if_neg (by rintro (rfl | rfl)
                              · exact h401 rfl
                              · exact h403 rfl)]
  have hhard2 : ∀ (oracle : Nat → ApiResult) (i : Nat) (ls : Option Nat) (le : String)
      (c : KeyCandidate) (cs : List KeyCandidate) (st : Option Nat) (body : String),
      oracle i = ApiResult.httpError st body → ¬(st = some 401 ∨ st = some 403) →
      apiLoop oracle i ls le (c :: cs) =
        (apiFail st ("HTTPError " ++ optStatusStr st), i + 1) := by
    intro oracle i ls le c cs st body h hne
    simp only [apiLoop, h]
    rw [if_neg hne]
  have hurl : ∀ (oracle : Nat → ApiResult) (i : Nat) (ls : Option Nat) (le : String)
      (c : KeyCandidate) (cs : List KeyCandidate) (m : String),
      oracle i = ApiResult.urlError m →
      apiLoop oracle i ls le (c :: cs) = (apiFail none ("URLError: " ++ m), i + 1) := by
    intro oracle i ls le c cs m h
    simp only [apiLoop, h]
  have hscenario : ∀ (prim : Prim) (env : CollectEnv) (oracle : Nat → ApiResult)
      (c1 c2 : KeyCandidate) (rest : List KeyCandidate) (b1 b2 : String),
      (iter_sendgrid_api_key_candidates prim env).1 = c1 :: c2 :: rest →
      oracle 0 = ApiResult.httpError (some 403) b1 →
      oracle 1 = ApiResult.response 202 b2 →
      send_via_sendgrid_api prim env oracle =
        ({ success := true, status := some 202, selectedSource := some c2.source,
           error := "" }, 2) := by
    intro prim env oracle c1 c2 rest b1 b2 hiter h0 h1
    have e1 : send_via_sendgrid_api prim env oracle =
        apiLoop oracle 0 none "" (c1 :: c2 :: rest) := by
      simp only [send_via_sendgrid_api]
      rw [hiter]
    rw [e1, hrot2 oracle 0 none "" c1 (c2 :: rest) 403 b1 h0 (Or.inr rfl),
      h2xx oracle 1 (some 403) ("HTTPError " ++ toString 403) c2 rest 202 b2 h1
        (by omega) (by omega)]
  exact ⟨hempty, h2xx, hrot1, hrot2, hhard1, hhard2, hurl, hscenario⟩

/-- Witness for C2 at concrete inputs: the no-candidate environment makes
zero requests, and the 403-then-202 rotation succeeds via the second
candidate with exactly two requests. -/
theorem c2_api_rotation_policy_witness :
    send_via_sendgrid_api primId envEmpty rotOracle =
      ({ success := false, status := none, selectedSource := none,
         error := "No SendGrid API key candidates found" }, 0) ∧
    send_via_sendgrid_api primId envTwo rotOracle =
      ({ success := true, status := some 202,
         selectedSource := some "settings.EMAIL_HOST_PASSWORD", error := "" }, 2) := by
  obtain ⟨h1, _, _, _, _, _, _, h8⟩ := c2_api_rotation_policy
  constructor
  · exact h1 primId envEmpty rotOracle (by decide)
  · exact h8 primId envTwo rotOracle ⟨"settings.SENDGRID_API_KEY", "SG.alpha"⟩
      ⟨"settings.EMAIL_HOST_PASSWORD", "SG.beta"⟩ [] "denied" "" (by decide) rfl rfl

/-- C1 counterexample: the SMTP sender has no retry loop.  Against a session
that raises `SMTPServerDisconnected` while transmitting on attempts 1 and 2
and would succeed from attempt 3 on — the exact scenario of the claim, which
predicts `success=true` with markers for both failed attempts — the code
returns `success=false` after a single connection attempt. -/
theorem c1_counterexample :
    (send_via_smtp primId cfgPw envEmpty "tcp_ok" disconnectTwiceOracle).1.success = false ∧
    (send_via_smtp primId cfgPw envEmpty "tcp_ok" disconnectTwiceOracle).1.error =
      "Connection unexpectedly closed" ∧
    ((send_via_smtp primId cfgPw envEmpty "tcp_ok" disconnectTwiceOracle).2).count
      SEvent.connectEv = 1 := by
  refine ⟨by decide, by decide, by decide⟩

/-- C1 (amended): in `_send_via_smtp` every step failure of the send
procedure (connect, greet, STARTTLS, authenticate, transmit) aborts the
attempt and is reported as the error of the outcome — including a
disconnect-specific failure: there is no retry and no backoff, and at most
one connection attempt is ever made. -/
theorem c1_smtp_no_retry (prim : Prim) (cfg : SmtpCfg) (env : CollectEnv)
    (probeRes : String) (oracle : Nat → SmtpStep → Option SmtpExn) (e : SmtpExn)
    (hpw : (resolveSmtpPw prim cfg env).1 ≠ "")
    (hfail : (runSteps oracle 0 cfg.user (resolveSmtpPw prim cfg env).1
      (fatalSteps cfg.useTls cfg.useSsl)).1 = some e) :
    (send_via_smtp prim cfg env probeRes oracle).1.success = false ∧
    (send_via_smtp prim cfg env probeRes oracle).1.error = e.msg ∧
    ((send_via_smtp prim cfg env probeRes oracle).2).count SEvent.connectEv ≤ 1 := by
  have hc := runSteps_count_connect oracle 0 cfg.user (resolveSmtpPw prim cfg env).1
    (fatalSteps cfg.useTls cfg.useSsl)
  have hf := fatalSteps_count_connect cfg.useTls cfg.useSsl
  simp only [send_via_smtp]
  rw [if_neg hpw, hfail]
  have hprobe : (SEvent.probeTcp == SEvent.connectEv) = false := by decide
  have hclose : (SEvent.closeEv == SEvent.connectEv) = false := by decide
  refine ⟨rfl, rfl, ?_⟩
  simp only [List.count_cons, List.count_append, List.count_singleton, List.count_nil,
    hprobe, hclose, Bool.false_eq_true, if_false]
  omega

/-- Witness for C1 (amended): a failing authentication step aborts the single
attempt with its message. -/
theorem c1_smtp_no_retry_witness :
    (send_via_smtp primId cfgPw envEmpty "tcp_ok" loginFailOracle).1.success = false ∧
    (send_via_smtp primId cfgPw envEmpty "tcp_ok" loginFailOracle).1.error =
      "535 authentication failed" ∧
    ((send_via_smtp primId cfgPw envEmpty "tcp_ok" loginFailOracle).2).count
      SEvent.connectEv ≤ 1 :=
  c1_smtp_no_retry primId cfgPw envEmpty "tcp_ok" loginFailOracle
    ⟨"SMTPAuthenticationError", "535 authentication failed"⟩ (by decide) (by decide)

/-- C7 counterexample: with no password configured and no credential
candidate, `_send_via_smtp` does fail with the specific diagnostic, but it is
not true that no network call is made: the `_probe_tcp` diagnostic TCP
connection (sendgrid_utils.py:372) runs before the password check, so the
network trace of the short-circuited call is non-empty. -/
theorem c7_counterexample :
    (send_via_smtp primId cfgNoPw envEmpty "tcp_ok" okSmtpOracle).1.success = false ∧
    (send_via_smtp primId cfgNoPw envEmpty "tcp_ok" okSmtpOracle).1.error =
      "No SMTP password available" ∧
    (send_via_smtp primId cfgNoPw envEmpty "tcp_ok" okSmtpOracle).2 = [SEvent.probeTcp] ∧
    (send_via_smtp primId cfgNoPw envEmpty "tcp_ok" okSmtpOracle).2 ≠ [] := by
  refine ⟨by decide, by decide, by decide, by decide⟩

/-- C7 (amended): when no SMTP password is available anywhere,
`_send_via_smtp` reports the specific diagnostic `No SMTP password available`
and short-circuits without any SMTP connection attempt — though the
diagnostic TCP probe still runs, so exactly one network event (the probe)
occurs; and when a password is absent from settings but candidates exist, the
highest-priority candidate is used as the SMTP password (it is reported as
the password source and handed to the login step). -/
theorem c7_no_password_short_circuit (prim : Prim) (cfg : SmtpCfg) (env : CollectEnv)
    (probeRes : String) (oracle : Nat → SmtpStep → Option SmtpExn) :
    ((resolveSmtpPw prim cfg env).1 = "" →
      (send_via_smtp prim cfg env probeRes oracle).1 =
        { success := false, status := none, probe := probeRes, pwSource := none,
          error := "No SMTP password available" } ∧
      (send_via_smtp prim cfg env probeRes oracle).2 = [SEvent.probeTcp]) ∧
    (sanitize_secret cfg.hostPassword = "" →
      ∀ (c : KeyCandidate) (cs : List KeyCandidate),
        (iter_sendgrid_api_key_candidates prim env).1 = c :: cs →
        resolveSmtpPw prim cfg env = (c.key, c.source) ∧
        ((send_via_smtp prim cfg env probeRes oracle).1.success = true →
          SEvent.loginEv cfg.user c.key ∈ (send_via_smtp prim cfg env probeRes oracle).2)) := by
  constructor
  · intro h
    simp only [send_via_smtp]
    rw [if_pos h]
    exact ⟨rfl, rfl⟩
  · intro hpw0 c cs hiter
    have hres : resolveSmtpPw prim cfg env = (c.key, c.source) := by
      simp only [resolveSmtpPw]
      rw [hiter]
      dsimp only
      rw [if_pos hpw0]
    refine ⟨hres, ?_⟩
    intro hsucc
    have hcmem : c ∈ (iter_sendgrid_api_key_candidates prim env).1 := by
      rw [hiter]; exact List.mem_cons_self _ _
    have hckey : c.key ≠ "" :=
      dedupCandidates_key_ne prim (candidatesRaw prim env) [] c hcmem
    simp only [send_via_smtp, hres] at hsucc ⊢
    rw [if_neg hckey] at hsucc ⊢
    cases hr : (runSteps oracle 0 cfg.user c.key (fatalSteps cfg.useTls cfg.useSsl)).1 with
    | some e => rw [hr] at hsucc; simp at hsucc
    | none =>
      dsimp only
      have hev := runSteps_none_events oracle 0 cfg.user c.key
        (fatalSteps cfg.useTls cfg.useSsl) hr
      rw [hev]
      refine List.mem_cons_of_mem _ (List.mem_append_left _ ?_)
      exact List.mem_map_of_mem _ (fatalSteps_login_mem _ _)

/-- Witness for C7 (amended): the short-circuit at a password-free
configuration, and the candidate fallback with the highest-priority settings
key as the SMTP password. -/
theorem c7_no_password_short_circuit_witness :
    ((send_via_smtp primId cfgNoPw envEmpty "tcp_ok" okSmtpOracle).1 =
      { success := false, status := none, probe := "tcp_ok", pwSource := none,
        error := "No SMTP password available" } ∧
      (send_via_smtp primId cfgNoPw envEmpty "tcp_ok" okSmtpOracle).2 =
        [SEvent.probeTcp]) ∧
    (resolveSmtpPw primId cfgNoPw envTwo = ("SG.alpha", "settings.SENDGRID_API_KEY") ∧
      ((send_via_smtp primId cfgNoPw envTwo "tcp_ok" okSmtpOracle).1.success = true →
        SEvent.loginEv "apikey" "SG.alpha" ∈
          (send_via_smtp primId cfgNoPw envTwo "tcp_ok" okSmtpOracle).2)) := by
  constructor
  · exact (c7_no_password_short_circuit primId cfgNoPw envEmpty "tcp_ok" okSmtpOracle).1
      (by decide)
  · exact (c7_no_password_short_circuit primId cfgNoPw envTwo "tcp_ok" okSmtpOracle).2
      (by decide) ⟨"settings.SENDGRID_API_KEY", "SG.alpha"⟩
      [⟨"settings.EMAIL_HOST_PASSWORD", "SG.beta"⟩] (by decide)

/-- C4: if after normalization the subject is empty or no recipients remain,
the orchestrator logs exactly one failed `internal` attempt per remaining
recipient (or a single placeholder row when the recipient list is empty),
returns failure, and tries no transport at all (hence makes no transport or
network call). -/
theorem c4_invalid_input_short_circuit (prim : Prim) (env : CollectEnv)
    (modeSetting : String) (api smtp : TransportR) (subject : String)
    (toEmails : List String)
    (h : pyStrip subject = "" ∨ normalizeRecipients toEmails = []) :
    (send_email_via_sendgrid prim env modeSetting api smtp subject toEmails).1 = false ∧
    (send_email_via_sendgrid prim env modeSetting api smtp subject toEmails).2.2 = [] ∧
    (send_email_via_sendgrid prim env modeSetting api smtp subject toEmails).2.1.length =
      (if normalizeRecipients toEmails = [] then 1
       else (normalizeRecipients toEmails).length) ∧
    (∀ row ∈ (send_email_via_sendgrid prim env modeSetting api smtp subject toEmails).2.1,
      row.provider = "internal" ∧ row.success = false) ∧
    (∀ r ∈ normalizeRecipients toEmails,
      ((send_email_via_sendgrid prim env modeSetting api smtp subject toEmails).2.1.filter
        (fun row => row.toEmail == r)).length = 1) := by
  simp only [send_email_via_sendgrid]
  rw [if_pos h]
  refine ⟨rfl, rfl, ?_, ?_, ?_⟩
  · by_cases hrec : normalizeRecipients toEmails = []
    · rw [if_pos hrec, if_pos hrec]
      simp
    · rw [if_neg hrec, if_neg hrec]
      simp
  · intro row hrow
    rcases List.mem_map.mp hrow with ⟨x, _, rfl⟩
    exact ⟨rfl, rfl⟩
  · intro r hr
    have hnd := nodup_normalizeRecipients toEmails
    have hrec : normalizeRecipients toEmails ≠ [] := by
      intro h0; rw [h0] at hr; simp at hr
    rw [if_neg hrec]
    have hcnt := length_filter_map_eq_count
      (fun x => internalRow x (pyStrip subject)) (fun row => row.toEmail == r) r
      (normalizeRecipients toEmails)
      (by
        intro x hx
        have hxne := mem_normalizeRecipients_ne hx
        simp [internalRow, mkRow, hxne])
    rw [hcnt, List.count_eq_one_of_mem hnd hr]

/-- Witness for C4: an empty subject with one recipient yields failure, no
tried transport, and a single internal row. -/
theorem c4_invalid_input_short_circuit_witness :
    (send_email_via_sendgrid primId envTwo "" apiBad smtpOk "" ["a@x.com"]).1 = false ∧
    (send_email_via_sendgrid primId envTwo "" apiBad smtpOk "" ["a@x.com"]).2.2 = [] ∧
    (send_email_via_sendgrid primId envTwo "" apiBad smtpOk "" ["a@x.com"]).2.1.length = 1 := by
  have h := c4_invalid_input_short_circuit primId envTwo "" apiBad smtpOk "" ["a@x.com"]
    (Or.inl (by decide))
  refine ⟨h.1, h.2.1, ?_⟩
  rw [h.2.2.1]
  decide

/-- C3: for one logical send with a valid subject and a non-empty
deduplicated recipient list, exactly one log row is written per
(recipient, transport tried) — when the primary transport fails and the
fallback is tried, each recipient gets one row for each of the two
transports — and every written row belongs to a normalized recipient and a
tried transport. -/
theorem c3_one_row_per_recipient_transport (prim : Prim) (env : CollectEnv)
    (modeSetting : String) (api smtp : TransportR) (subject : String)
    (toEmails : List String) (r p : String)
    (hs : pyStrip subject ≠ "")
    (hrec : normalizeRecipients toEmails ≠ [])
    (hr : r ∈ normalizeRecipients toEmails)
    (hp : p ∈ (send_email_via_sendgrid prim env modeSetting api smtp subject toEmails).2.2) :
    ((send_email_via_sendgrid prim env modeSetting api smtp subject toEmails).2.1.filter
      (fun row => row.toEmail == r && row.provider == p)).length = 1 ∧
    (∀ row ∈ (send_email_via_sendgrid prim env modeSetting api smtp subject toEmails).2.1,
      row.toEmail ∈ normalizeRecipients toEmails ∧
      row.provider ∈
        (send_email_via_sendgrid prim env modeSetting api smtp subject toEmails).2.2) := by
  have hcond : ¬(pyStrip subject = "" ∨ normalizeRecipients toEmails = []) := by
    intro hor
    rcases hor with h1 | h2
    · exact hs h1
    · exact hrec h2
  have heq : send_email_via_sendgrid prim env modeSetting api smtp subject toEmails =
      runProviders api smtp (pyStrip subject) (normalizeRecipients toEmails)
        (if get_backend_mode prim env modeSetting = "smtp" then ["smtp", "sendgrid"]
         else ["sendgrid", "smtp"]) := by
    simp only [send_email_via_sendgrid]
    rw [if_neg hcond]
  rw [heq] at hp ⊢
  have hnodupProv :
      (if get_backend_mode prim env modeSetting = "smtp" then ["smtp", "sendgrid"]
       else ["sendgrid", "smtp"]).Nodup := by
    split <;> decide
  have hts := runProviders_tried_sublist api smtp (pyStrip subject)
    (normalizeRecipients toEmails)
    (if get_backend_mode prim env modeSetting = "smtp" then ["smtp", "sendgrid"]
     else ["sendgrid", "smtp"])
  have hnodupT := List.Nodup.sublist hts hnodupProv
  have hlog := runProviders_log_eq api smtp (pyStrip subject) (normalizeRecipients toEmails)
    (if get_backend_mode prim env modeSetting = "smtp" then ["smtp", "sendgrid"]
     else ["sendgrid", "smtp"])
  rw [hlog]
  constructor
  · exact providerRows_filter_one api smtp (pyStrip subject) r p
      (normalizeRecipients toEmails) (nodup_normalizeRecipients toEmails) hr _ hnodupT hp
  · intro row hrow
    exact mem_providerRows api smtp (pyStrip subject) (normalizeRecipients toEmails) _
      row hrow

/-- Witness for C3: with a failing primary API transport and a succeeding
SMTP fallback, the duplicate-free recipient gets exactly one row for the
tried SMTP transport. -/
theorem c3_one_row_per_recipient_transport_witness :
    ((send_email_via_sendgrid primId envTwo "" apiBad smtpOk "Hello"
      ["a@x.com", "a@x.com", "b@x.com"]).2.1.filter
      (fun row => row.toEmail == "a@x.com" && row.provider == "smtp")).length = 1 :=
  (c3_one_row_per_recipient_transport primId envTwo "" apiBad smtpOk "Hello"
    ["a@x.com", "a@x.com", "b@x.com"] "a@x.com" "smtp" (by decide) (by decide)
    (by decide) (by decide)).1

/-- C5: the credential collector consults its sources in the fixed priority
order (secret-store value, settings API key, settings password, environment
API key, environment password), normalizes each raw value, and deduplicates
by the fingerprint of the normalized value with the first occurrence winning:
under injectivity of the fingerprint on the raw sources (collision-freeness
of the hash), for any value `k` produced by some raw source the output
contains exactly one candidate with key `k`, attributed to the
highest-priority source producing it. -/
theorem c5_priority_order_and_dedup (prim : Prim) (env : CollectEnv) (k : String)
    (p0 : String × String)
    (hinj : ∀ a ∈ candidatesRaw prim env, ∀ b ∈ candidatesRaw prim env,
      fingerprint prim (extract_sendgrid_key prim a.2) =
        fingerprint prim (extract_sendgrid_key prim b.2) →
      extract_sendgrid_key prim a.2 = extract_sendgrid_key prim b.2)
    (hk : k ≠ "")
    (hfind : findRawWithKey prim k (candidatesRaw prim env) = some p0) :
    ((candidatesRaw prim env).map Prod.fst =
      (if extract_sendgrid_key prim (get_secret_string_uncached prim env.awsBackend).1 ≠ ""
       then ["aws_secrets:" ++ env.secretName ++ "@" ++ env.region] else []) ++
      ["settings.SENDGRID_API_KEY", "settings.EMAIL_HOST_PASSWORD",
       "env:SENDGRID_API_KEY", "env:EMAIL_HOST_PASSWORD"]) ∧
    ((iter_sendgrid_api_key_candidates prim env).1.filter (fun c => c.key == k) =
      [⟨p0.1, k⟩]) := by
  constructor
  · simp only [candidatesRaw]
    split <;> simp
  · exact dedupCandidates_filter_first prim (candidatesRaw prim env) [] k p0 hinj hk
      (by simp) hfind

/-- Witness for C5: with byte-identical settings and environment API keys,
the output holds exactly one candidate for that value, attributed to the
higher-priority settings source. -/
theorem c5_priority_order_and_dedup_witness :
    (iter_sendgrid_api_key_candidates primId envDup).1.filter
      (fun c => c.key == "SG.alpha") =
      [⟨"settings.SENDGRID_API_KEY", "SG.alpha"⟩] :=
  (c5_priority_order_and_dedup primId envDup "SG.alpha"
    ("settings.SENDGRID_API_KEY", "SG.alpha") (by decide) (by decide) (by decide)).2
